import Mathlib

/-!
Verification development for the `planner` repository front end.

The Rust sources `src/lib/template.rs` and `src/lib/parse.rs` are embedded
shallowly below.  The repository modules `entry.rs`, `error.rs` and `date.rs`
are not part of the provided sources; the data they define (`Amount`, `Tag`,
`Category`, `Duration`, `Window`, `Span`, `Entry`, `Date`, `Month`, the
diagnostic type `Error` and its builder methods) is modelled from the spec,
as marked on each declaration.  Rust `HashMap` / `HashSet` are modelled by
association lists / duplicate-free lists: only their mapping/membership
semantics is observable (iteration order of a Rust `HashMap` is unspecified).
`isize` arithmetic is modelled by `Int`; the monetary parser's `f64`
arithmetic is modelled exactly by dyadic rationals, see `roundDoubleN`.
-/

namespace Planner

/-- Modelled from the spec: a source location, "a (path, byte-span) pair"
(`error::Loc` / `pest::Span` in the sources). -/
structure Loc where
  path : String
  lo : Nat
  hi : Nat
deriving DecidableEq, Repr

/-- Modelled from the spec: one annotation of a diagnostic, "an ordered
sequence of (optional-span, message) annotations". -/
inductive ErrItem where
  | span (l : Loc) (msg : String)
  | text (msg : String)
deriving DecidableEq, Repr

/-- Modelled from the spec: a diagnostic with "a short title, an ordered list
of (optional source-span, message) annotation pairs, and a severity
(fatal vs non-fatal)" (`error::Error`). -/
structure Error where
  title : String
  fatal : Bool
  items : List ErrItem
deriving DecidableEq, Repr

/-- Modelled from the spec: `Error::new`, fatal by default
(`nonfatal()` flips the severity). -/
def Error.new (t : String) : Error := ⟨t, true, []⟩

/-- Modelled from the spec: `Error::with_span` appends a located annotation. -/
def Error.with_span (e : Error) (l : Loc) (m : String) : Error :=
  { e with items := e.items ++ [ErrItem.span l m] }

/-- Modelled from the spec: `Error::with_message` appends a plain annotation. -/
def Error.with_message (e : Error) (m : String) : Error :=
  { e with items := e.items ++ [ErrItem.text m] }

/-- Modelled from the spec: `Error::nonfatal` marks the diagnostic advisory. -/
def Error.nonfatal (e : Error) : Error := { e with fatal := false }

/-- Modelled from the spec: `Error::register` appends the diagnostic to the
accumulating `ErrorRecord`. -/
def Error.register (e : Error) (errs : List Error) : List Error := errs ++ [e]

/-- The single-quote character, used by the Rust `format!` strings. -/
def sq : String := "\x27"

/-- `'{s}'` as produced by the Rust `format!` patterns. -/
def squote (s : String) : String := sq ++ s ++ sq

/-- Modelled from the spec: `Amount` is a "signed integer number of currency
minor units (cents)"; `isize` is modelled by `Int`. -/
structure Amount where
  cents : Int
deriving DecidableEq, Repr

/-- Modelled from the spec: `Tag` is "an owned display string". -/
structure Tag where
  text : String
deriving DecidableEq, Repr

/-- Modelled from the spec: the closed `Category` enumeration. -/
inductive Category where
  | Salary | Food | Communication | Movement | School | Cleaning | Home
deriving DecidableEq, Repr

/-- Modelled from the spec: the closed `Duration` enumeration. -/
inductive Duration where
  | Day | Week | Month | Year
deriving DecidableEq, Repr

/-- Modelled from the spec: the closed `Window` enumeration. -/
inductive Window where
  | Current | Posterior | Anterior | Precedent | Successor
deriving DecidableEq, Repr

/-- Modelled from the spec: `Span = {duration, window, count}` (the recurrence
descriptor, not a source span). -/
structure Span where
  duration : Duration
  window : Window
  count : Nat
deriving DecidableEq, Repr

/-- Modelled from the spec: `Entry`, "the terminal, concrete artifact". -/
structure Entry where
  value : Amount
  cat : Category
  span : Span
  tag : Tag
deriving DecidableEq, Repr

/-- Modelled from the spec: calendar month (external calendar collaborator). -/
inductive Month where
  | Jan | Feb | Mar | Apr | May | Jun | Jul | Aug | Sep | Oct | Nov | Dec
deriving DecidableEq, Repr

/-- Modelled from the spec: the external calendar's `Date`; only the pure
rendering accessors are consumed by this subsystem. -/
structure Date where
  year : Nat
  month : Month
  day : Nat
deriving DecidableEq, Repr

/-- Month number 1..12 of the external calendar. -/
def Month.num : Month → Nat
  | .Jan => 1 | .Feb => 2 | .Mar => 3 | .Apr => 4 | .May => 5 | .Jun => 6
  | .Jul => 7 | .Aug => 8 | .Sep => 9 | .Oct => 10 | .Nov => 11 | .Dec => 12

/-- Modelled from the spec: textual rendering of a month (external
collaborator, "all pure"; the exact text is not observable by any claim). -/
def Month.render : Month → String
  | .Jan => "Jan" | .Feb => "Feb" | .Mar => "Mar" | .Apr => "Apr"
  | .May => "May" | .Jun => "Jun" | .Jul => "Jul" | .Aug => "Aug"
  | .Sep => "Sep" | .Oct => "Oct" | .Nov => "Nov" | .Dec => "Dec"

/-- Modelled from the spec: `date.day()` rendering. -/
def Date.dayRender (d : Date) : String := toString d.day

/-- Modelled from the spec: `date.month()` rendering. -/
def Date.monthRender (d : Date) : String := d.month.render

/-- Modelled from the spec: `date.year()` rendering. -/
def Date.yearRender (d : Date) : String := toString d.year

/-- Modelled from the spec: full-date rendering of the external calendar. -/
def Date.dateRender (d : Date) : String :=
  d.yearRender ++ "-" ++ d.monthRender ++ "-" ++ d.dayRender

/-- Modelled from the spec: weekday of the external calendar (a pure total
function of the date; computed by the Zeller congruence). -/
def Date.weekdayIndex (d : Date) : Nat :=
  let mn := d.month.num
  let y := if mn ≤ 2 then d.year - 1 else d.year
  let m := if mn ≤ 2 then mn + 12 else mn
  (d.day + 13 * (m + 1) / 5 + y % 100 + y % 100 / 4 + y / 100 / 4 + 5 * (y / 100)) % 7

/-- Modelled from the spec: `date.weekday()` rendering. -/
def Date.weekdayRender (d : Date) : String :=
  ["Saturday", "Sunday", "Monday", "Tuesday", "Wednesday", "Thursday",
   "Friday"].getD d.weekdayIndex ""

/-- Modelled from the spec: `amount.to_string()`, "its standard textual form"
(cents rendered as a decimal number; not observable by any claim). -/
def Amount.render (a : Amount) : String :=
  let n := a.cents.natAbs
  (if a.cents < 0 then "-" else "") ++
    toString (n / 100) ++ "." ++ (if n % 100 < 10 then "0" else "") ++ toString (n % 100)

/-! ### Association lists modelling `HashMap`, lists modelling `HashSet`

Rust `HashMap<String, V>` is modelled by a duplicate-free association list:
`insertAL` replaces any previous binding of the key; `lookupAL` returns the
current binding.  Iteration order of a `HashMap` is unspecified in Rust, so
only the mapping semantics (and, for iteration, the multiset of entries) is
meaningful. -/

def lookupAL {α : Type} : List (String × α) → String → Option α
  | [], _ => none
  | (k, v) :: t, x => if k = x then some v else lookupAL t x

def eraseAL {α : Type} : List (String × α) → String → List (String × α)
  | [], _ => []
  | (k, v) :: t, x => if k = x then eraseAL t x else (k, v) :: eraseAL t x

/-- `HashMap::insert`: bind `k` to `v`, replacing any previous binding. -/
def insertAL {α : Type} (m : List (String × α)) (k : String) (v : α) :
    List (String × α) :=
  (k, v) :: eraseAL m k

/-- `HashSet::insert` on a duplicate-free list of strings. -/
def insertHS (s : List String) (a : String) : List String :=
  if a ∈ s then s else a :: s

/-! ### `src/lib/template.rs`: data -/

/-- `template.rs`: `Arg`, "a tagged union over {Amount, Tag}". -/
inductive Arg where
  | Amount (a : Amount)
  | Tag (s : String)
deriving DecidableEq, Repr

/-- `template.rs`: `Instance`, a template-invocation request. -/
structure Instance where
  label : String
  pos : List Arg
  named : List (String × Arg)
deriving DecidableEq, Repr

/-- `template.rs`: `TagTemplateItem`. -/
inductive TagTemplateItem where
  | Day | Month | Year | Date | Weekday
  | Raw (s : String)
  | Arg (a : String)
deriving DecidableEq, Repr

/-- `template.rs`: `TagTemplate` (a newtype over the item vector). -/
structure TagTemplate where
  items : List TagTemplateItem
deriving DecidableEq, Repr

/-- `template.rs`: `AmountTemplateItem`. -/
inductive AmountTemplateItem where
  | Cst (a : Amount)
  | Arg (s : String)
deriving DecidableEq, Repr

/-- `template.rs`: `AmountTemplate` (`sign : bool`, true = positive). -/
structure AmountTemplate where
  sign : Bool
  sum : List AmountTemplateItem
deriving DecidableEq, Repr

/-- `template.rs`: `Template`. -/
structure Template where
  positional : List String
  named : List (String × Arg)
  value : AmountTemplate
  cat : Category
  span : Span
  tag : TagTemplate
deriving DecidableEq, Repr

/-- `parse.rs`: `AstItem`. -/
inductive AstItem where
  | Entry (d : Date) (e : Entry)
  | Instance (d : Date) (l : Loc) (i : Instance)
  | Template (n : String) (l : Loc) (t : Template)
deriving DecidableEq, Repr

/-! ### `src/lib/template.rs`: functions

`Result<T>` is `Except Error T`.  The template registry
`HashMap<String, (pest::Span, Template)>` is an association list. -/

/-- The "Undeclared template" diagnostic of `instanciate_item`. -/
def undeclared_template_error (loc : Loc) (label : String) : Error :=
  ((Error.new "Undeclared template").with_span loc
      ("attempt to instanciate " ++ label)).with_message "Maybe a typo ?"

/-- The "Argcount mismatch" diagnostic of `build_arguments`. -/
def argcount_mismatch_error (loc : Loc) (ninst : Nat) (tloc : Loc)
    (ntempl : Nat) : Error :=
  (((Error.new "Argcount mismatch").with_span loc
      ("instanciation provides " ++ toString ninst ++ " arguments")).with_span
      tloc ("template expects " ++ toString ntempl ++ " arguments")).with_message
      "Fix the count mismatch"

/-- The "Missing argument" diagnostic, built identically by
`instantiate_amount` and `instanciate_tag`. -/
def missing_argument_error (name : String) (loc_inst loc_templ : Loc)
    (a : String) : Error :=
  ((((Error.new "Missing argument").with_span loc_inst
      ("in instanciation of " ++ squote name)).with_message
      ("Argument " ++ squote a ++ " is not provided")).with_span loc_templ
      "defined here").with_message
      "Remove argument from template body or provide a default value"

/-- The "Type mismatch" diagnostic of `instantiate_amount`. -/
def type_mismatch_error (name : String) (loc_inst loc_templ : Loc) : Error :=
  ((((Error.new "Type mismatch").with_span loc_inst
      ("in instanciation of " ++ squote name)).with_message
      "Cannot treat tag as a monetary value").with_span loc_templ
      "defined here").with_message "Make it a value"

/-- The non-fatal "Unused argument" advisory printed by
`perform_replacements`. -/
def unused_argument_warning (loc : Loc) (name : String) (argname : String)
    (tloc : Loc) : Error :=
  (((((Error.new "Unused argument").nonfatal).with_span loc
      ("in instanciation of " ++ squote name)).with_message
      ("Argument " ++ argname ++ " is provided but not used")).with_span tloc
      "defined here").with_message "Remove argument or use in template"

/-- The non-fatal "Needless amount" advisory printed by
`perform_replacements`. -/
def needless_amount_warning (loc : Loc) (name : String) (argname : String)
    (tloc : Loc) : Error :=
  (((((Error.new "Needless amount").nonfatal).with_span loc
      ("in instanciation of " ++ squote name)).with_message
      ("Argument " ++ squote argname ++ " has type " ++ squote "amount" ++
        " but could be a " ++ squote "tag")).with_span tloc
      "defined here").with_message
      "Change to string or use in amount calculation"

/-- Loop body of `instantiate_amount` (`template.rs:172`): running sum and
running set of consulted argument names. -/
def ia_go (name : String) (loc_inst loc_templ : Loc)
    (args : List (String × Arg)) :
    List AmountTemplateItem → Int → List String →
    Except Error (Int × List String)
  | [], sum, used => .ok (sum, used)
  | AmountTemplateItem.Cst a :: rest, sum, used =>
    ia_go name loc_inst loc_templ args rest (sum + a.cents) used
  | AmountTemplateItem.Arg a :: rest, sum, used =>
    let used := insertHS used a
    match lookupAL args a with
    | none => .error (missing_argument_error name loc_inst loc_templ a)
    | some (Arg.Amount n) =>
      ia_go name loc_inst loc_templ args rest (sum + n.cents) used
    | some (Arg.Tag _) =>
      .error (type_mismatch_error name loc_inst loc_templ)

/-- `template.rs:172` `instantiate_amount`: evaluate the amount template,
negating the completed sum when `sign` is false. -/
def instantiate_amount (name : String) (loc_inst loc_templ : Loc)
    (templ : AmountTemplate) (args : List (String × Arg)) :
    Except Error (Amount × List String) :=
  match ia_go name loc_inst loc_templ args templ.sum 0 [] with
  | .error e => .error e
  | .ok (sum, used) => .ok (⟨if templ.sign then sum else -sum⟩, used)

/-- Loop body of `instanciate_tag` (`template.rs:211`): running text and
running set of consulted argument names. -/
def it_go (name : String) (loc_inst loc_templ : Loc)
    (args : List (String × Arg)) (date : Date) :
    List TagTemplateItem → String → List String →
    Except Error (String × List String)
  | [], tag, used => .ok (tag, used)
  | item :: rest, tag, used =>
    match item with
    | TagTemplateItem.Day =>
      it_go name loc_inst loc_templ args date rest (tag ++ date.dayRender) used
    | TagTemplateItem.Month =>
      it_go name loc_inst loc_templ args date rest (tag ++ date.monthRender) used
    | TagTemplateItem.Year =>
      it_go name loc_inst loc_templ args date rest (tag ++ date.yearRender) used
    | TagTemplateItem.Date =>
      it_go name loc_inst loc_templ args date rest (tag ++ date.dateRender) used
    | TagTemplateItem.Weekday =>
      it_go name loc_inst loc_templ args date rest (tag ++ date.weekdayRender) used
    | TagTemplateItem.Raw s =>
      it_go name loc_inst loc_templ args date rest (tag ++ s) used
    | TagTemplateItem.Arg a =>
      let used := insertHS used a
      match lookupAL args a with
      | none => .error (missing_argument_error name loc_inst loc_templ a)
      | some (Arg.Amount amount) =>
        it_go name loc_inst loc_templ args date rest (tag ++ amount.render) used
      | some (Arg.Tag t) =>
        it_go name loc_inst loc_templ args date rest (tag ++ t) used

/-- `template.rs:211` `instanciate_tag`. -/
def instanciate_tag (name : String) (loc_inst loc_templ : Loc)
    (templ : TagTemplate) (args : List (String × Arg)) (date : Date) :
    Except Error (Tag × List String) :=
  match it_go name loc_inst loc_templ args date templ.items "" [] with
  | .error e => .error e
  | .ok (tag, used) => .ok (⟨tag⟩, used)

/-- `template.rs:103` `build_arguments`: bind positional arguments in order
against the declared positional parameter names, then seed the named
defaults, then apply the instance's named arguments on top. -/
def build_arguments (inst : Instance) (loc : Loc)
    (template : Loc × Template) : Except Error (List (String × Arg)) :=
  if inst.pos.length ≠ template.2.positional.length then
    .error (argcount_mismatch_error loc inst.pos.length template.1
      template.2.positional.length)
  else
    let args := (template.2.positional.zip inst.pos).foldl
      (fun m p => insertAL m p.1 p.2) []
    let args := template.2.named.foldl (fun m p => insertAL m p.1 p.2) args
    let args := inst.named.foldl (fun m p => insertAL m p.1 p.2) args
    .ok args

/-- The advisory printed (via `println!`) by `perform_replacements` for one
bound argument, per the source's match on `(argval, use_v, use_t)`. -/
def audit_warning (loc : Loc) (name : String) (tloc : Loc)
    (used_val used_tag : List String) (p : String × Arg) : Option Error :=
  match p.2, used_val.contains p.1, used_tag.contains p.1 with
  | _, false, false => some (unused_argument_warning loc name p.1 tloc)
  | Arg.Amount _, false, true => some (needless_amount_warning loc name p.1 tloc)
  | _, _, _ => none

/-- `template.rs:130` `perform_replacements`.  In Rust the advisories are
printed to stdout and only the `Entry` is returned; the model returns the
printed advisories alongside the entry (iteration order of the argument map
is unspecified in Rust; here it is the model's list order). -/
def perform_replacements (name : String) (loc : Loc)
    (templ : Loc × Template) (args : List (String × Arg)) (date : Date) :
    Except Error (Entry × List Error) :=
  match instantiate_amount name loc templ.1 templ.2.value args with
  | .error e => .error e
  | .ok (value, used_val) =>
    match instanciate_tag name loc templ.1 templ.2.tag args date with
    | .error e => .error e
    | .ok (tag, used_tag) =>
      let warns := args.filterMap (audit_warning loc name templ.1 used_val used_tag)
      .ok ({ value := value, cat := templ.2.cat, span := templ.2.span,
             tag := tag }, warns)

/-- `template.rs:85` `instanciate_item` (the printed advisories of
`perform_replacements` do not reach the returned `Result` in Rust). -/
def instanciate_item (inst : Instance) (date : Date) (loc : Loc)
    (templates : List (String × Loc × Template)) : Except Error Entry :=
  match lookupAL templates inst.label with
  | none => .error (undeclared_template_error loc inst.label)
  | some templ =>
    match build_arguments inst loc templ with
    | .error e => .error e
    | .ok args =>
      match perform_replacements inst.label loc templ args date with
      | .error e => .error e
      | .ok (entry, _) => .ok entry

/-- The loop of `instanciate` (`template.rs:67`): a single pass over the AST
carrying the entry accumulator and the template registry. -/
def instanciateAux :
    List AstItem → List (Date × Entry) → List (String × Loc × Template) →
    Except Error (List (Date × Entry))
  | [], entries, _ => .ok entries
  | item :: rest, entries, templates =>
    match item with
    | AstItem.Entry date entry =>
      instanciateAux rest (entries ++ [(date, entry)]) templates
    | AstItem.Template name loc body =>
      instanciateAux rest entries (insertAL templates name (loc, body))
    | AstItem.Instance date loc inst =>
      match instanciate_item inst date loc templates with
      | .error e => .error e
      | .ok inst => instanciateAux rest (entries ++ [(date, inst)]) templates

/-- `template.rs:67` `instanciate`. -/
def instanciate (ast : List AstItem) : Except Error (List (Date × Entry)) :=
  instanciateAux ast [] []

/-! ### `src/lib/parse.rs`: the monetary parser `parse_amount!`

The Rust macro expands to `(s.parse::<f64>().unwrap() * 100.0).round() as
isize`.  This is IEEE-754 binary64 arithmetic and is modelled exactly on
dyadic rationals: a finite positive double is `m * 2 ^ e` with `m < 2 ^ 53`;
`str::parse::<f64>` and `*` are correctly rounded to the nearest double with
ties to even, and `f64::round` rounds halves away from zero.  The model
covers magnitudes in `(2 ^ (-200), 2 ^ 200)` — far beyond any monetary
literal and entirely inside the binary64 normal range, so no subnormal,
infinity or NaN case arises.  Negative literals are handled by sign-magnitude
symmetry of all three operations. -/

/-- Fueled binary logarithm: `ilog2F fuel n` is `⌊log₂ n⌋` for `1 ≤ n < 2 ^ fuel`. -/
def ilog2F : Nat → Nat → Nat
  | 0, _ => 0
  | fuel + 1, n => if n < 2 then 0 else ilog2F fuel (n / 2) + 1

/-- `⌊log₂ (a / b)⌋` for `2 ^ (-200) < a / b < 2 ^ 200`, computed by scaling
the fraction into the integers. -/
def floorLog2 (a b : Nat) : Int :=
  (ilog2F 500 (a * 2 ^ 200 / b) : Int) - 200

/-- Round the fraction `a / b` (with `b > 0`) to the nearest integer, ties to
even: the IEEE-754 default rounding. -/
def rneN (a b : Nat) : Nat :=
  let q := a / b
  let r := a % b
  if 2 * r < b then q
  else if b < 2 * r then q + 1
  else if q % 2 = 0 then q else q + 1

/-- Round the fraction `a / b` (with `b > 0`) to the nearest integer, ties
away from zero (on magnitudes): the rounding of `f64::round`. -/
def rhaN (a b : Nat) : Nat := (2 * a + b) / (2 * b)

/-- The binary64 double nearest to `a / b` (with `a ≥ 0`, `b > 0`), as a pair
`(mantissa, exponent)` denoting `mantissa * 2 ^ exponent`. -/
def roundDoubleN (a b : Nat) : Nat × Int :=
  if a = 0 then (0, 0)
  else
    let e := floorLog2 a b
    let s := e - 52
    let m := if 0 ≤ s then rneN a (b * 2 ^ s.toNat) else rneN (a * 2 ^ (-s).toNat) b
    (m, s)

/-- `s.parse::<f64>()` on the magnitude `n / 10 ^ k` of a decimal literal:
Rust float parsing is correctly rounded to nearest, ties to even. -/
def f64ofDecimal (n k : Nat) : Nat × Int := roundDoubleN n (10 ^ k)

/-- `v * 100.0` in binary64: `100.0` is exact, so the product is the exact
dyadic `m * 100 * 2 ^ e` rounded to the nearest double. -/
def f64mul100 (v : Nat × Int) : Nat × Int :=
  if 0 ≤ v.2 then roundDoubleN (v.1 * 100 * 2 ^ v.2.toNat) 1
  else roundDoubleN (v.1 * 100) (2 ^ (-v.2).toNat)

/-- `f64::round` on a nonnegative double: ties away from zero. -/
def f64roundTiesAway (p : Nat × Int) : Nat :=
  if 0 ≤ p.2 then p.1 * 2 ^ p.2.toNat else rhaN p.1 (2 ^ (-p.2).toNat)

/-- `parse.rs:110` `parse_amount!` on the literal `(-)? n / 10 ^ k`:
`(s.parse::<f64>().unwrap() * 100.0).round() as isize`. -/
def parse_amount (neg : Bool) (n k : Nat) : Int :=
  let r := f64roundTiesAway (f64mul100 (f64ofDecimal n k))
  if neg then -(r : Int) else (r : Int)

/-- `parse.rs:277` `read_amount`: wrap the parsed cent count. -/
def read_amount (neg : Bool) (n k : Nat) : Amount := ⟨parse_amount neg n k⟩

/-- Modelled from the spec: the comparison rule of §8, "the parsed Amount
equals round(100×value) cents" with "round-half-away-from-zero", computed
exactly on the rational value `(-)? n / 10 ^ k`. -/
def spec_round_cents (neg : Bool) (n k : Nat) : Int :=
  let r := rhaN (100 * n) (10 ^ k)
  if neg then -(r : Int) else (r : Int)

/-! ### `src/lib/parse.rs`: `read_span` -/

/-- The grammar rule label attached to a span sub-pair: `read_span` only
inspects whether a pair's rule is `span_window`. -/
inductive SpanRule where
  | span_window
  | span_value
deriving DecidableEq, Repr

/-- `parse_usize!`: strict base-10 `str::parse::<usize>` (the optional sign
accepted by Rust never arises from the grammar); `none` models the panic of
`.unwrap()` on malformed input. -/
def parse_usize (s : String) : Option Nat :=
  if s.data ≠ [] ∧ s.data.all (fun c => c.isDigit) then
    some (s.data.foldl (fun a c => 10 * a + (c.toNat - 48)) 0)
  else none

/-- The duration keyword match inside `read_span` (`unreachable!` on other
strings is modelled by `none`). -/
def dur_of : String → Option Duration
  | "Day" => some Duration.Day
  | "Week" => some Duration.Week
  | "Month" => some Duration.Month
  | "Year" => some Duration.Year
  | _ => none

/-- The window keyword match inside `read_span`. -/
def win_of : String → Option Window
  | "Curr" => some Window.Current
  | "Post" => some Window.Posterior
  | "Ante" => some Window.Anterior
  | "Pred" => some Window.Precedent
  | "Succ" => some Window.Successor
  | _ => none

/-- `parse.rs:324` `read_span` over the span rule's inner pairs: a duration
pair, then optionally a `span_window` pair, then optionally a count pair.
An omitted window defaults to `Current` and an omitted count to `1`; `none`
models the panics of the Rust `unwrap`/`unreachable!` calls. -/
def read_span (pairs : List (SpanRule × String)) : Option Span :=
  match pairs with
  | [] => none
  | (_, d) :: rest =>
    match dur_of d with
    | none => none
    | some dur =>
      match rest with
      | (SpanRule.span_window, w) :: rest2 =>
        match win_of w with
        | none => none
        | some win =>
          match rest2 with
          | [] => some { duration := dur, window := win, count := 1 }
          | (_, c) :: _ =>
            (parse_usize c).map
              (fun n => { duration := dur, window := win, count := n })
      | (_, c) :: _ =>
        (parse_usize c).map
          (fun n => { duration := dur, window := Window.Current, count := n })
      | [] => some { duration := dur, window := Window.Current, count := 1 }

/-! ### `src/lib/parse.rs`: plain-entry validation

A plain entry's inner pairs, with the payload each sub-parser extracts. -/

/-- One inner pair of a `plain_entry`: `entry_val`, `entry_type`,
`entry_span` or `entry_tag`, carrying the value its sub-parser produces. -/
inductive PlainItem where
  | entry_val (a : Amount)
  | entry_type (c : Category)
  | entry_span (s : Span)
  | entry_tag (t : String)
deriving DecidableEq, Repr

/-- The field name `validate_plain_entry` reports for an item. -/
def item_field : PlainItem → String
  | .entry_val _ => "val"
  | .entry_type _ => "cat"
  | .entry_span _ => "span"
  | .entry_tag _ => "tag"

/-- The "Duplicate field definition" diagnostic of `set_or_fail!`
(`parse.rs:117`). -/
def duplicate_field_error (loc : Loc) (name : String) : Error :=
  (((Error.new "Duplicate field definition").with_span loc
      ("attempt to override " ++ name)).with_message
      "Each field may only be defined once").with_message "Remove this field"

/-- The "Missing field definition" diagnostic of `unwrap_or_fail!`
(`parse.rs:133`). -/
def missing_field_error (loc : Loc) (name : String) : Error :=
  (((Error.new "Missing field definition").with_span loc
      (squote name ++ " may not be omitted")).with_message
      "Each field must be defined once").with_message
      "Add definition for the missing field"

/-- The loop and final checks of `validate_plain_entry` (`parse.rs:494`):
set-once accumulators for the four fields, then `unwrap_or_fail!` in the
order val, cat, span, tag. -/
def vpe_go (loc : Loc) :
    List PlainItem → Option Amount → Option Category → Option Span →
    Option Tag → List Error → Option Entry × List Error
  | [], v, c, s, t, errs =>
    match v with
    | none => (none, (missing_field_error loc "val").register errs)
    | some value =>
      match c with
      | none => (none, (missing_field_error loc "cat").register errs)
      | some cat =>
        match s with
        | none => (none, (missing_field_error loc "span").register errs)
        | some span =>
          match t with
          | none => (none, (missing_field_error loc "tag").register errs)
          | some tag => (some ⟨value, cat, span, tag⟩, errs)
  | item :: rest, v, c, s, t, errs =>
    match item with
    | .entry_val a =>
      if v.isSome then (none, (duplicate_field_error loc "val").register errs)
      else vpe_go loc rest (some a) c s t errs
    | .entry_type cc =>
      if c.isSome then (none, (duplicate_field_error loc "cat").register errs)
      else vpe_go loc rest v (some cc) s t errs
    | .entry_span ss =>
      if s.isSome then (none, (duplicate_field_error loc "span").register errs)
      else vpe_go loc rest v c (some ss) t errs
    | .entry_tag tt =>
      if t.isSome then (none, (duplicate_field_error loc "tag").register errs)
      else vpe_go loc rest v c s (some ⟨tt⟩) errs

/-- `parse.rs:494` `validate_plain_entry`. -/
def validate_plain_entry (loc : Loc) (items : List PlainItem)
    (errs : List Error) : Option Entry × List Error :=
  vpe_go loc items none none none none errs

/-- One entry of a day block, as dispatched by `validate_day`
(`parse.rs:439`): an expand entry (already read by `read_expand_entry`) or a
plain entry (its inner pairs). -/
inductive DayEntry where
  | expand (loc : Loc) (i : Instance)
  | plain (loc : Loc) (items : List PlainItem)
deriving DecidableEq, Repr

/-- The loop of `validate_day`: a failed plain entry is skipped
(`continue 'pairs`) and elaboration proceeds with the remaining entries. -/
def vd_go (date : Date) :
    List DayEntry → List AstItem → List Error → List AstItem × List Error
  | [], acc, errs => (acc, errs)
  | DayEntry.expand loc i :: rest, acc, errs =>
    vd_go date rest (acc ++ [AstItem.Instance date loc i]) errs
  | DayEntry.plain loc items :: rest, acc, errs =>
    match validate_plain_entry loc items errs with
    | (none, errs2) => vd_go date rest acc errs2
    | (some e, errs2) => vd_go date rest (acc ++ [AstItem.Entry date e]) errs2

/-- `parse.rs:439` `validate_day` (it always returns `Some`). -/
def validate_day (date : Date) (pairs : List DayEntry) (errs : List Error) :
    Option (List AstItem) × List Error :=
  let r := vd_go date pairs [] errs
  (some r.1, r.2)

/-! ### Derived notions used to state the claims -/

/-- Total-function `Option` alternative, written out to keep statements
elementary. -/
def orElseO {α : Type} (a b : Option α) : Option α :=
  match a with
  | some x => some x
  | none => b

/-- The value bound by the textually last binding of `x` in `l` — the binding
that survives a left-to-right sequence of `HashMap::insert` calls. -/
def last_binding {α : Type} (l : List (String × α)) (x : String) : Option α :=
  lookupAL l.reverse x

/-- The argument names referenced by an amount template, in order. -/
def amount_refs : List AmountTemplateItem → List String
  | [] => []
  | AmountTemplateItem.Cst _ :: rest => amount_refs rest
  | AmountTemplateItem.Arg a :: rest => a :: amount_refs rest

/-- The cents contributed by one amount-template item (argument references
are assumed bound to an `Amount`; the `0` branch is dead under that
hypothesis). -/
def amount_value (args : List (String × Arg)) : AmountTemplateItem → Int
  | AmountTemplateItem.Cst a => a.cents
  | AmountTemplateItem.Arg a =>
    match lookupAL args a with
    | some (Arg.Amount n) => n.cents
    | _ => 0

/-- The sum, over the items of an amount template, of the contributed cents. -/
def amount_sum (args : List (String × Arg))
    (items : List AmountTemplateItem) : Int :=
  (items.map (amount_value args)).sum

/-- Resolution of an instantiation against one specific `(definition span,
template)` registry entry: the tail of `instanciate_item` after the lookup. -/
def resolve_against (inst : Instance) (d : Date) (loc : Loc)
    (t : Loc × Template) : Except Error Entry :=
  match build_arguments inst loc t with
  | .error e => .error e
  | .ok args =>
    match perform_replacements inst.label loc t args d with
    | .error e => .error e
    | .ok (entry, _) => .ok entry

/-! ### Concrete fixtures for witnesses and counterexamples -/

def loc0 : Loc := ⟨"input", 0, 10⟩

def loc1 : Loc := ⟨"input", 20, 30⟩

def loc2 : Loc := ⟨"input", 40, 50⟩

def date0 : Date := ⟨2024, Month.Jan, 1⟩

/-- A template with no parameters, value `5` cents, category `Food`,
monthly span, empty tag. -/
def templ0 : Template :=
  ⟨[], [], ⟨true, [AmountTemplateItem.Cst ⟨5⟩]⟩, Category.Food,
    ⟨Duration.Month, Window.Current, 1⟩, ⟨[]⟩⟩

/-- A second template body distinct from `templ0`. -/
def templ9 : Template :=
  ⟨[], [], ⟨true, [AmountTemplateItem.Cst ⟨9⟩]⟩, Category.Home,
    ⟨Duration.Year, Window.Current, 1⟩, ⟨[TagTemplateItem.Raw "z"]⟩⟩

/-- A template with two positional parameters. -/
def templ2pos : Template :=
  ⟨["p", "q"], [], ⟨true, [AmountTemplateItem.Arg "p"]⟩, Category.Food,
    ⟨Duration.Month, Window.Current, 1⟩, ⟨[TagTemplateItem.Arg "q"]⟩⟩

/-- The template of the argument-precedence test: named parameter `x`
defaulting to `Amount(100)`. -/
def templX : Template :=
  ⟨[], [("x", Arg.Amount ⟨100⟩)], ⟨true, []⟩, Category.Home,
    ⟨Duration.Month, Window.Current, 1⟩, ⟨[]⟩⟩

/-- The instance of the argument-precedence test: override `x = Tag "a"`. -/
def instX : Instance := ⟨"t", [], [("x", Arg.Tag "a")]⟩

def entry0 : Entry :=
  ⟨⟨7⟩, Category.Food, ⟨Duration.Day, Window.Current, 1⟩, ⟨"x"⟩⟩

/-- Usage-audit fixture: the amount references no argument, the tag
references only `z`. -/
def templW8 : Template :=
  ⟨[], [], ⟨true, [AmountTemplateItem.Cst ⟨1⟩]⟩, Category.Food,
    ⟨Duration.Month, Window.Current, 1⟩, ⟨[TagTemplateItem.Arg "z"]⟩⟩

/-- Usage-audit fixture: `y` is bound but never consulted, `z` is an
`Amount` consulted only by the tag evaluation. -/
def argsW8 : List (String × Arg) :=
  [("y", Arg.Amount ⟨5⟩), ("z", Arg.Amount ⟨6⟩)]

/-! ## Helper lemmas on the map model -/

theorem lookupAL_eraseAL {α : Type} (m : List (String × α)) (k x : String)
    (h : k ≠ x) : lookupAL (eraseAL m k) x = lookupAL m x := by
  induction m with
  | nil => rfl
  | cons p t ih =>
    obtain ⟨a, v⟩ := p
    by_cases hak : a = k
    · subst hak
      simp [eraseAL, lookupAL, ih, h]
    · by_cases hax : a = x
      · subst hax
        simp [eraseAL, lookupAL, hak]
      · simp [eraseAL, lookupAL, hak, hax, ih]

theorem lookupAL_insertAL_self {α : Type} (m : List (String × α))
    (k : String) (v : α) : lookupAL (insertAL m k v) k = some v := by
  simp [insertAL, lookupAL]

theorem lookupAL_insertAL_ne {α : Type} (m : List (String × α))
    (k x : String) (v : α) (h : k ≠ x) :
    lookupAL (insertAL m k v) x = lookupAL m x := by
  simp [insertAL, lookupAL, h]
  exact lookupAL_eraseAL m k x h

theorem lookupAL_append {α : Type} (l1 l2 : List (String × α)) (x : String) :
    lookupAL (l1 ++ l2) x = orElseO (lookupAL l1 x) (lookupAL l2 x) := by
  induction l1 with
  | nil => simp [lookupAL, orElseO]
  | cons p t ih =>
    obtain ⟨a, v⟩ := p
    by_cases hax : a = x <;> simp [lookupAL, hax, ih, orElseO]

theorem orElseO_none {α : Type} (a : Option α) : orElseO a none = a := by
  cases a <;> rfl

theorem last_binding_cons {α : Type} (k : String) (v : α)
    (t : List (String × α)) (x : String) :
    last_binding ((k, v) :: t) x =
      orElseO (last_binding t x) (if k = x then some v else none) := by
  simp only [last_binding, List.reverse_cons, lookupAL_append, lookupAL]

theorem lookupAL_foldl_insertAL {α : Type} (l : List (String × α))
    (m : List (String × α)) (x : String) :
    lookupAL (l.foldl (fun m p => insertAL m p.1 p.2) m) x =
      orElseO (last_binding l x) (lookupAL m x) := by
  induction l generalizing m with
  | nil => simp [last_binding, lookupAL, orElseO]
  | cons p t ih =>
    obtain ⟨k, v⟩ := p
    rw [List.foldl_cons, ih, last_binding_cons]
    cases hlb : last_binding t x with
    | some w => simp [orElseO]
    | none =>
      by_cases hkx : k = x
      · subst hkx
        simp [orElseO, lookupAL_insertAL_self]
      · simp [orElseO, hkx, lookupAL_insertAL_ne m k x v hkx]

theorem mem_insertHS (s : List String) (a x : String) :
    x ∈ insertHS s a ↔ x = a ∨ x ∈ s := by
  by_cases h : a ∈ s
  · simp only [insertHS, if_pos h]
    constructor
    · exact Or.inr
    · rintro (rfl | hx)
      · exact h
      · exact hx
  · simp [insertHS, if_neg h]

/-- With duplicate-free keys there is at most one pair per key. -/
theorem nodup_keys_unique {α : Type} {args : List (String × α)}
    {p q : String × α} (hnd : (args.map Prod.fst).Nodup)
    (hp : p ∈ args) (hq : q ∈ args) (hk : q.1 = p.1) : q = p := by
  induction args with
  | nil => cases hp
  | cons hd tl ih =>
    simp only [List.map_cons, List.nodup_cons] at hnd
    rcases List.mem_cons.1 hp with rfl | hp2
    · rcases List.mem_cons.1 hq with rfl | hq2
      · rfl
      · have hmem : p.1 ∈ List.map Prod.fst tl := by
          rw [← hk]
          exact List.mem_map_of_mem Prod.fst hq2
        exact absurd hmem hnd.1
    · rcases List.mem_cons.1 hq with rfl | hq2
      · have hmem : q.1 ∈ List.map Prod.fst tl := by
          rw [hk]
          exact List.mem_map_of_mem Prod.fst hp2
        exact absurd hmem hnd.1
      · exact ih hnd.2 hp2 hq2

/-! ## Claim C7 -/

/-- Claim C7: when the number of positional arguments differs from the number
of declared positional parameters, `build_arguments` fails with the fatal
argument-count-mismatch diagnostic naming both counts and carrying both the
instantiation-site span and the template-definition-site span; nothing is
bound (the function returns before any insertion) and no panic can occur
(the function is total). -/
theorem build_arguments_argcount_mismatch (inst : Instance) (loc ts : Loc)
    (t : Template) (h : inst.pos.length ≠ t.positional.length) :
    build_arguments inst loc (ts, t) =
      .error (argcount_mismatch_error loc inst.pos.length ts
        t.positional.length) := by
  simp [build_arguments, h]

theorem build_arguments_argcount_mismatch_witness :
    (⟨"t", [Arg.Amount ⟨1⟩], []⟩ : Instance).pos.length ≠
        templ2pos.positional.length ∧
    build_arguments ⟨"t", [Arg.Amount ⟨1⟩], []⟩ loc0 (loc1, templ2pos) =
      .error (argcount_mismatch_error loc0 1 loc1 2) :=
  ⟨by decide,
   build_arguments_argcount_mismatch ⟨"t", [Arg.Amount ⟨1⟩], []⟩ loc0 loc1
     templ2pos (by decide)⟩

/-! ## Claim C9 -/

/-- Claim C9: a span field consisting of a duration keyword alone elaborates
with the defaults `window = Current`, `count = 1`; in general an omitted
window defaults to `Current` (also when a count is given) and an omitted
count defaults to `1` (also when a window is given).  In particular `Month`
alone yields `{duration := Month, window := Current, count := 1}`. -/
theorem read_span_defaults (r : SpanRule) (d w c : String)
    (dur : Duration) (win : Window) (n : Nat)
    (hd : dur_of d = some dur) (hw : win_of w = some win)
    (hc : parse_usize c = some n) :
    read_span [(SpanRule.span_value, "Month")] =
      some ⟨Duration.Month, Window.Current, 1⟩ ∧
    read_span [(r, d)] = some ⟨dur, Window.Current, 1⟩ ∧
    read_span [(r, d), (SpanRule.span_window, w)] = some ⟨dur, win, 1⟩ ∧
    read_span [(r, d), (SpanRule.span_value, c)] =
      some ⟨dur, Window.Current, n⟩ := by
  refine ⟨rfl, ?_, ?_, ?_⟩ <;> simp [read_span, hd, hw, hc]

theorem read_span_defaults_witness :
    dur_of "Month" = some Duration.Month ∧ win_of "Post" = some Window.Posterior ∧
    parse_usize "3" = some 3 ∧
    (read_span [(SpanRule.span_value, "Month")] =
        some ⟨Duration.Month, Window.Current, 1⟩ ∧
      read_span [(SpanRule.span_value, "Month")] =
        some ⟨Duration.Month, Window.Current, 1⟩ ∧
      read_span [(SpanRule.span_value, "Month"), (SpanRule.span_window, "Post")] =
        some ⟨Duration.Month, Window.Posterior, 1⟩ ∧
      read_span [(SpanRule.span_value, "Month"), (SpanRule.span_value, "3")] =
        some ⟨Duration.Month, Window.Current, 3⟩) :=
  ⟨by decide, by decide, by decide,
   read_span_defaults SpanRule.span_value "Month" "Post" "3" Duration.Month
     Window.Posterior 3 (by decide) (by decide) (by decide)⟩

/-! ## Claim C1 -/

/-- Claim C1 counterexample: an `Instance` of `"t"` placed before the only
`Template` declaration named `"t"` is not resolved against it — `instanciate`
fails with "Undeclared template" instead of producing the concrete entry the
claim promises. -/
theorem instanciate_later_template_counterexample :
    instanciate [AstItem.Instance date0 loc0 ⟨"t", [], []⟩,
                 AstItem.Template "t" loc1 templ0] =
      .error (undeclared_template_error loc0 "t") := by
  rfl

/-- Claim C1 (amended): `instanciate` is a single sequential pass, so
declaration order is relevant: an `Instance` is resolved only against the
templates registered from items preceding it.  If its label is not in the
registry built so far, the instantiation fails with "Undeclared template"
even when a template of that name is declared immediately afterwards; in
particular an AST that opens with an `Instance` always fails. -/
theorem instanciate_registry_is_sequential (d : Date) (loc tloc : Loc)
    (inst : Instance) (tb : Template) (rest : List AstItem)
    (es : List (Date × Entry)) (tm : List (String × Loc × Template))
    (h : lookupAL tm inst.label = none) :
    instanciateAux (AstItem.Instance d loc inst ::
        AstItem.Template inst.label tloc tb :: rest) es tm =
      .error (undeclared_template_error loc inst.label) ∧
    instanciate (AstItem.Instance d loc inst :: rest) =
      .error (undeclared_template_error loc inst.label) := by
  constructor
  · simp [instanciateAux, instanciate_item, h]
  · simp [instanciate, instanciateAux, instanciate_item, lookupAL]

theorem instanciate_registry_is_sequential_witness :
    lookupAL ([] : List (String × Loc × Template)) "t" = none ∧
    (instanciateAux [AstItem.Instance date0 loc0 ⟨"t", [], []⟩,
        AstItem.Template "t" loc1 templ0] [] [] =
      .error (undeclared_template_error loc0 "t") ∧
    instanciate [AstItem.Instance date0 loc0 ⟨"t", [], []⟩] =
      .error (undeclared_template_error loc0 "t")) :=
  ⟨rfl, instanciate_registry_is_sequential date0 loc0 loc1 ⟨"t", [], []⟩
    templ0 [] [] [] rfl⟩

/-! ## Claim C2 -/

/-- Claim C2 counterexample: one fatal instantiation error (here: undeclared
template `"u"`) makes `instanciate` return that error alone — the following
unaffected `Entry` item and the well-formed `Instance` of `"t"` contribute no
entries and no further diagnostics, contrary to the claim. -/
theorem instanciate_abort_counterexample :
    instanciate [AstItem.Template "t" loc1 templ0,
                 AstItem.Instance date0 loc0 ⟨"u", [], []⟩,
                 AstItem.Entry date0 entry0,
                 AstItem.Instance date0 loc2 ⟨"t", [], []⟩] =
      .error (undeclared_template_error loc0 "u") := by
  rfl

/-- Claim C2 (amended): instantiation-time errors are fatal to the whole
pass, not to the single instantiation: the first failing `Instance` makes
`instanciate` return its error, and the remaining items — including
unaffected `Entry` and `Instance` items — are neither processed nor
reported, and no entries at all are returned. -/
theorem instanciate_first_error_aborts (d : Date) (loc : Loc)
    (inst : Instance) (rest : List AstItem) (es : List (Date × Entry))
    (tm : List (String × Loc × Template)) (e : Error)
    (h : instanciate_item inst d loc tm = .error e) :
    instanciateAux (AstItem.Instance d loc inst :: rest) es tm = .error e := by
  simp [instanciateAux, h]

theorem instanciate_first_error_aborts_witness :
    instanciate_item ⟨"u", [], []⟩ date0 loc0 [] =
      .error (undeclared_template_error loc0 "u") ∧
    instanciateAux [AstItem.Instance date0 loc0 ⟨"u", [], []⟩,
        AstItem.Entry date0 entry0] [] [] =
      .error (undeclared_template_error loc0 "u") :=
  ⟨rfl, instanciate_first_error_aborts date0 loc0 ⟨"u", [], []⟩
    [AstItem.Entry date0 entry0] [] [] (undeclared_template_error loc0 "u")
    rfl⟩

/-! ## Claim C10 -/

/-- Claim C10: two `Template` declarations with the same name are both
registered without any diagnostic (registration is a plain recursive step
that cannot fail); the later declaration replaces the earlier binding in the
registry, so an instance placed between the two declarations is resolved
against the earlier body while an instance placed after both is resolved
against the later body. -/
theorem instanciate_duplicate_template_last_wins (n : String)
    (l1 l2 loca locb : Loc) (b1 b2 : Template) (rest : List AstItem)
    (es : List (Date × Entry)) (tm : List (String × Loc × Template))
    (da db : Date) (i1 i2 : Instance)
    (h1 : i1.label = n) (h2 : i2.label = n) :
    (instanciateAux (AstItem.Template n l1 b1 :: rest) es tm =
      instanciateAux rest es (insertAL tm n (l1, b1))) ∧
    (instanciate_item i1 da loca (insertAL tm n (l1, b1)) =
      resolve_against i1 da loca (l1, b1)) ∧
    (instanciate_item i2 db locb (insertAL (insertAL tm n (l1, b1)) n (l2, b2)) =
      resolve_against i2 db locb (l2, b2)) := by
  refine ⟨by simp [instanciateAux], ?_, ?_⟩
  · simp [instanciate_item, resolve_against, h1, lookupAL_insertAL_self]
  · simp [instanciate_item, resolve_against, h2, lookupAL_insertAL_self]

theorem instanciate_duplicate_template_last_wins_witness :
    (⟨"t", [], []⟩ : Instance).label = "t" ∧
    ((instanciateAux (AstItem.Template "t" loc1 templ0 :: []) [] [] =
        instanciateAux [] [] (insertAL [] "t" (loc1, templ0))) ∧
      (instanciate_item ⟨"t", [], []⟩ date0 loc0 (insertAL [] "t" (loc1, templ0)) =
        resolve_against ⟨"t", [], []⟩ date0 loc0 (loc1, templ0)) ∧
      (instanciate_item ⟨"t", [], []⟩ date0 loc2
          (insertAL (insertAL [] "t" (loc1, templ0)) "t" (loc2, templ9)) =
        resolve_against ⟨"t", [], []⟩ date0 loc2 (loc2, templ9))) :=
  ⟨rfl, instanciate_duplicate_template_last_wins "t" loc1 loc2 loc0 loc2
    templ0 templ9 [] [] [] date0 date0 ⟨"t", [], []⟩ ⟨"t", [], []⟩ rfl rfl⟩

/-! ## Claim C4 -/

theorem ia_go_ok (name : String) (li lt : Loc) (args : List (String × Arg)) :
    ∀ (items : List AmountTemplateItem) (sum : Int) (used : List String),
    (∀ a ∈ amount_refs items, ∃ n, lookupAL args a = some (Arg.Amount n)) →
    ∃ used2, ia_go name li lt args items sum used =
        .ok (sum + amount_sum args items, used2) ∧
      ∀ x, x ∈ used2 ↔ x ∈ used ∨ x ∈ amount_refs items := by
  intro items
  induction items with
  | nil =>
    intro sum used _
    exact ⟨used, by simp [ia_go, amount_sum], by simp [amount_refs]⟩
  | cons item rest ih =>
    intro sum used hb
    match item with
    | AmountTemplateItem.Cst a =>
      obtain ⟨used2, heq, hmem⟩ := ih (sum + a.cents) used
        (by simpa [amount_refs] using hb)
      refine ⟨used2, ?_, ?_⟩
      · rw [ia_go, heq]
        congr 2
        simp [amount_sum, amount_value]
        ring
      · simpa [amount_refs] using hmem
    | AmountTemplateItem.Arg a =>
      obtain ⟨n, hn⟩ := hb a (by simp [amount_refs])
      obtain ⟨used2, heq, hmem⟩ := ih (sum + n.cents) (insertHS used a)
        (fun x hx => hb x (by simp [amount_refs, hx]))
      refine ⟨used2, ?_, ?_⟩
      · rw [ia_go]
        simp only [hn]
        rw [heq]
        congr 2
        simp [amount_sum, amount_value, hn]
        ring
      · intro x
        rw [hmem x, mem_insertHS]
        simp [amount_refs]
        tauto

theorem ia_go_tag (name : String) (li lt : Loc) (args : List (String × Arg)) :
    ∀ (items : List AmountTemplateItem) (sum : Int) (used : List String),
    (∀ a ∈ amount_refs items, (lookupAL args a).isSome) →
    (∃ a ∈ amount_refs items, ∃ s, lookupAL args a = some (Arg.Tag s)) →
    ia_go name li lt args items sum used =
      .error (type_mismatch_error name li lt) := by
  intro items
  induction items with
  | nil =>
    intro sum used _ hex
    simp [amount_refs] at hex
  | cons item rest ih =>
    intro sum used hsome hex
    match item with
    | AmountTemplateItem.Cst a =>
      rw [ia_go]
      exact ih (sum + a.cents) used (by simpa [amount_refs] using hsome)
        (by simpa [amount_refs] using hex)
    | AmountTemplateItem.Arg a =>
      have ha : (lookupAL args a).isSome := hsome a (by simp [amount_refs])
      rw [ia_go]
      match hla : lookupAL args a with
      | none => rw [hla] at ha; simp at ha
      | some (Arg.Tag s) => simp [hla]
      | some (Arg.Amount n) =>
        simp only [hla]
        refine ih (sum + n.cents) (insertHS used a)
          (fun x hx => hsome x (by simp [amount_refs, hx])) ?_
        obtain ⟨b, hbmem, s, hbs⟩ := hex
        rcases (by simpa [amount_refs] using hbmem : b = a ∨ b ∈ amount_refs rest)
          with rfl | hbr
        · rw [hla] at hbs
          cases hbs
        · exact ⟨b, hbr, s, hbs⟩

/-- Claim C4: `instantiate_amount` sums its items left to right — constants
contribute their cents, argument references the cents of their bound
`Amount` — and negates the completed sum as a whole exactly when the
template's sign flag is false, also returning exactly the set of consulted
argument names; and whenever every referenced argument is bound but some
referenced argument is bound to a `Tag`, it fails with the fatal
"Type mismatch" ("cannot treat tag as a monetary value") diagnostic. -/
theorem instantiate_amount_spec (name : String) (li lt : Loc)
    (t : AmountTemplate) (args : List (String × Arg)) :
    ((∀ a ∈ amount_refs t.sum, ∃ n, lookupAL args a = some (Arg.Amount n)) →
      ∃ used, instantiate_amount name li lt t args =
          .ok (⟨if t.sign then amount_sum args t.sum
                else -amount_sum args t.sum⟩, used) ∧
        ∀ x, x ∈ used ↔ x ∈ amount_refs t.sum) ∧
    ((∀ a ∈ amount_refs t.sum, (lookupAL args a).isSome) →
      (∃ a ∈ amount_refs t.sum, ∃ s, lookupAL args a = some (Arg.Tag s)) →
      instantiate_amount name li lt t args =
        .error (type_mismatch_error name li lt)) := by
  constructor
  · intro hb
    obtain ⟨used2, heq, hmem⟩ := ia_go_ok name li lt args t.sum 0 [] hb
    refine ⟨used2, ?_, fun x => by simpa using hmem x⟩
    simp [instantiate_amount, heq]
  · intro hsome hex
    simp [instantiate_amount, ia_go_tag name li lt args t.sum 0 [] hsome hex]

theorem instantiate_amount_spec_witness :
    (∃ used, instantiate_amount "t" loc0 loc1
          ⟨false, [AmountTemplateItem.Cst ⟨3⟩, AmountTemplateItem.Arg "x"]⟩
          [("x", Arg.Amount ⟨4⟩)] =
        .ok (⟨-7⟩, used) ∧
      ∀ x, x ∈ used ↔
        x ∈ amount_refs [AmountTemplateItem.Cst ⟨3⟩, AmountTemplateItem.Arg "x"]) ∧
    instantiate_amount "t" loc0 loc1 ⟨true, [AmountTemplateItem.Arg "y"]⟩
        [("y", Arg.Tag "s")] =
      .error (type_mismatch_error "t" loc0 loc1) := by
  constructor
  · exact (instantiate_amount_spec "t" loc0 loc1
      ⟨false, [AmountTemplateItem.Cst ⟨3⟩, AmountTemplateItem.Arg "x"]⟩
      [("x", Arg.Amount ⟨4⟩)]).1
      (by intro a ha; fin_cases ha; exact ⟨⟨4⟩, rfl⟩)
  · exact (instantiate_amount_spec "t" loc0 loc1
      ⟨true, [AmountTemplateItem.Arg "y"]⟩ [("y", Arg.Tag "s")]).2
      (by intro a ha; fin_cases ha; rfl)
      ⟨"y", by simp [amount_refs], "s", rfl⟩

/-! ## Claim C5 -/

/-- Claim C5: when the positional argument count matches, `build_arguments`
succeeds, and the resulting binding of every name is: the instance's named
argument if supplied, otherwise the template's declared default, otherwise
the positional binding (positional arguments zipped in order against the
declared parameter names) — so an instance-supplied value always overrides a
template default of the same name.  In particular a named parameter `x`
defaulting to `Amount(100)` overridden at the call site with `x = Tag "a"`
resolves to `Tag "a"`. -/
theorem build_arguments_spec (inst : Instance) (loc tloc : Loc)
    (t : Template) (h : inst.pos.length = t.positional.length) :
    (∃ args, build_arguments inst loc (tloc, t) = .ok args ∧
      ∀ x, lookupAL args x =
        orElseO (last_binding inst.named x)
          (orElseO (last_binding t.named x)
            (last_binding (t.positional.zip inst.pos) x))) ∧
    (∃ args, build_arguments instX loc0 (loc1, templX) = .ok args ∧
      lookupAL args "x" = some (Arg.Tag "a")) := by
  constructor
  · refine ⟨_, by rw [build_arguments, if_neg (by simp [h])], ?_⟩
    intro x
    rw [lookupAL_foldl_insertAL, lookupAL_foldl_insertAL,
      lookupAL_foldl_insertAL]
    simp only [lookupAL, orElseO_none]
  · exact ⟨_, rfl, rfl⟩

theorem build_arguments_spec_witness :
    instX.pos.length = templX.positional.length ∧
    ((∃ args, build_arguments instX loc0 (loc1, templX) = .ok args ∧
        ∀ x, lookupAL args x =
          orElseO (last_binding instX.named x)
            (orElseO (last_binding templX.named x)
              (last_binding (templX.positional.zip instX.pos) x))) ∧
      (∃ args, build_arguments instX loc0 (loc1, templX) = .ok args ∧
        lookupAL args "x" = some (Arg.Tag "a"))) :=
  ⟨rfl, build_arguments_spec instX loc0 loc1 templX rfl⟩

/-! ## Claim C6 -/

theorem not_mem_cons_iff_of_ne {a b : String} (l : List String) (h : a ≠ b) :
    a ∉ b :: l ↔ a ∉ l := by
  simp [h]

theorem vpe_go_duplicate (loc : Loc) :
    ∀ (items : List PlainItem) (v : Option Amount) (c : Option Category)
      (s : Option Span) (t : Option Tag) (errs : List Error),
    2 ≤ (items.map item_field).count "val" + (if v.isSome then 1 else 0) →
    ∃ name, vpe_go loc items v c s t errs =
      (none, errs ++ [duplicate_field_error loc name]) := by
  intro items
  induction items with
  | nil =>
    intro v c s t errs h
    simp only [List.map_nil, List.count_nil, Nat.zero_add] at h
    exfalso
    split at h <;> omega
  | cons item rest ih =>
    intro v c s t errs h
    match item with
    | .entry_val a =>
      cases v with
      | some w => exact ⟨"val", by simp [vpe_go, Error.register]⟩
      | none =>
        simp only [List.map_cons, item_field, List.count_cons_self,
          Option.isSome_none, Bool.false_eq_true, if_false, Nat.add_zero] at h
        obtain ⟨name, hname⟩ := ih (some a) c s t errs (by simpa using h)
        refine ⟨name, ?_⟩
        simp only [vpe_go, Option.isSome_none, Bool.false_eq_true, if_false]
        exact hname
    | .entry_type cc =>
      cases c with
      | some w => exact ⟨"cat", by simp [vpe_go, Error.register]⟩
      | none =>
        obtain ⟨name, hname⟩ := ih v (some cc) s t errs
          (by simpa [item_field] using h)
        refine ⟨name, ?_⟩
        simp only [vpe_go, Option.isSome_none, Bool.false_eq_true, if_false]
        exact hname
    | .entry_span ss =>
      cases s with
      | some w => exact ⟨"span", by simp [vpe_go, Error.register]⟩
      | none =>
        obtain ⟨name, hname⟩ := ih v c (some ss) t errs
          (by simpa [item_field] using h)
        refine ⟨name, ?_⟩
        simp only [vpe_go, Option.isSome_none, Bool.false_eq_true, if_false]
        exact hname
    | .entry_tag tt =>
      cases t with
      | some w => exact ⟨"tag", by simp [vpe_go, Error.register]⟩
      | none =>
        obtain ⟨name, hname⟩ := ih v c s (some ⟨tt⟩) errs
          (by simpa [item_field] using h)
        refine ⟨name, ?_⟩
        simp only [vpe_go, Option.isSome_none, Bool.false_eq_true, if_false]
        exact hname

theorem vpe_go_missing_tag (loc : Loc) :
    ∀ (items : List PlainItem) (v : Option Amount) (c : Option Category)
      (s : Option Span) (errs : List Error),
    (items.map item_field).Nodup →
    "tag" ∉ items.map item_field →
    (v.isSome = true ↔ "val" ∉ items.map item_field) →
    (c.isSome = true ↔ "cat" ∉ items.map item_field) →
    (s.isSome = true ↔ "span" ∉ items.map item_field) →
    vpe_go loc items v c s none errs =
      (none, errs ++ [missing_field_error loc "tag"]) := by
  intro items
  induction items with
  | nil =>
    intro v c s errs _ _ hv hc hs
    obtain ⟨value, rfl⟩ := Option.isSome_iff_exists.mp (hv.mpr (by simp))
    obtain ⟨cat, rfl⟩ := Option.isSome_iff_exists.mp (hc.mpr (by simp))
    obtain ⟨span, rfl⟩ := Option.isSome_iff_exists.mp (hs.mpr (by simp))
    simp [vpe_go, Error.register]
  | cons item rest ih =>
    intro v c s errs hnd htag hv hc hs
    simp only [List.map_cons, List.nodup_cons] at hnd
    match item with
    | .entry_val a =>
      simp only [List.map_cons, item_field] at hv hc hs htag
      rw [not_mem_cons_iff_of_ne _ (by decide)] at hc
      rw [not_mem_cons_iff_of_ne _ (by decide)] at hs
      rw [not_mem_cons_iff_of_ne _ (by decide)] at htag
      have hvn : v = none := by
        cases v with
        | none => rfl
        | some w => exact absurd (by simp) (hv.mp rfl)
      subst hvn
      simp only [vpe_go, Option.isSome_none, Bool.false_eq_true, if_false]
      refine ih (some a) c s errs hnd.2 htag ?_ hc hs
      simp only [Option.isSome_some, true_iff]
      simpa [item_field] using hnd.1
    | .entry_type cc =>
      simp only [List.map_cons, item_field] at hv hc hs htag
      rw [not_mem_cons_iff_of_ne _ (by decide)] at hv
      rw [not_mem_cons_iff_of_ne _ (by decide)] at hs
      rw [not_mem_cons_iff_of_ne _ (by decide)] at htag
      have hcn : c = none := by
        cases c with
        | none => rfl
        | some w => exact absurd (by simp) (hc.mp rfl)
      subst hcn
      simp only [vpe_go, Option.isSome_none, Bool.false_eq_true, if_false]
      refine ih v (some cc) s errs hnd.2 htag hv ?_ hs
      simp only [Option.isSome_some, true_iff]
      simpa [item_field] using hnd.1
    | .entry_span ss =>
      simp only [List.map_cons, item_field] at hv hc hs htag
      rw [not_mem_cons_iff_of_ne _ (by decide)] at hv
      rw [not_mem_cons_iff_of_ne _ (by decide)] at hc
      rw [not_mem_cons_iff_of_ne _ (by decide)] at htag
      have hsn : s = none := by
        cases s with
        | none => rfl
        | some w => exact absurd (by simp) (hs.mp rfl)
      subst hsn
      simp only [vpe_go, Option.isSome_none, Bool.false_eq_true, if_false]
      refine ih v c (some ss) errs hnd.2 htag hv hc ?_
      simp only [Option.isSome_some, true_iff]
      simpa [item_field] using hnd.1
    | .entry_tag tt =>
      exact absurd (by simp [item_field]) htag

/-- Claim C6: a plain entry that supplies some field twice (in particular
`val`) yields exactly one "Duplicate field definition" diagnostic and no
`Entry`; a plain entry that omits `tag` while supplying the other fields once
yields exactly one "Missing field definition" diagnostic for `tag` and no
`Entry`; and `validate_day` skips only that single declaration, continuing
the elaboration of the sibling declarations unchanged. -/
theorem validate_plain_entry_spec (loc : Loc) (errs : List Error)
    (items : List PlainItem) (date : Date) (rest : List DayEntry)
    (items2 : List PlainItem) :
    (2 ≤ (items.map item_field).count "val" →
      ∃ name, validate_plain_entry loc items errs =
        (none, errs ++ [duplicate_field_error loc name])) ∧
    ((items.map item_field).Nodup →
      "tag" ∉ items.map item_field →
      "val" ∈ items.map item_field →
      "cat" ∈ items.map item_field →
      "span" ∈ items.map item_field →
      validate_plain_entry loc items errs =
        (none, errs ++ [missing_field_error loc "tag"])) ∧
    ((validate_plain_entry loc items2 errs).1 = none →
      validate_day date (DayEntry.plain loc items2 :: rest) errs =
        validate_day date rest (validate_plain_entry loc items2 errs).2) := by
  refine ⟨?_, ?_, ?_⟩
  · intro h
    exact vpe_go_duplicate loc items none none none none errs (by simpa using h)
  · intro hnd htag hval hcat hspan
    exact vpe_go_missing_tag loc items none none none errs hnd htag
      (by simp [hval]) (by simp [hcat]) (by simp [hspan])
  · intro h
    cases hq : validate_plain_entry loc items2 errs with
    | mk o errs2 =>
      rw [hq] at h
      simp only at h
      subst h
      have hv : vd_go date (DayEntry.plain loc items2 :: rest) [] errs =
          vd_go date rest [] errs2 := by
        rw [vd_go, hq]
      simp only [validate_day, hq, hv]

theorem validate_plain_entry_spec_witness :
    (2 ≤ ([PlainItem.entry_val ⟨1⟩, PlainItem.entry_val ⟨2⟩].map
        item_field).count "val" ∧
      ∃ name, validate_plain_entry loc0
          [PlainItem.entry_val ⟨1⟩, PlainItem.entry_val ⟨2⟩] [] =
        (none, [] ++ [duplicate_field_error loc0 name])) ∧
    (validate_plain_entry loc0
        [PlainItem.entry_val ⟨1⟩, PlainItem.entry_type Category.Food,
          PlainItem.entry_span ⟨Duration.Month, Window.Current, 1⟩] [] =
      (none, [] ++ [missing_field_error loc0 "tag"])) ∧
    (validate_day date0
        [DayEntry.plain loc0 [PlainItem.entry_val ⟨1⟩, PlainItem.entry_val ⟨2⟩],
          DayEntry.expand loc1 ⟨"t", [], []⟩] [] =
      validate_day date0 [DayEntry.expand loc1 ⟨"t", [], []⟩]
        (validate_plain_entry loc0
          [PlainItem.entry_val ⟨1⟩, PlainItem.entry_val ⟨2⟩] []).2) :=
  ⟨⟨by decide,
    (validate_plain_entry_spec loc0 [] [PlainItem.entry_val ⟨1⟩,
      PlainItem.entry_val ⟨2⟩] date0 [] []).1 (by decide)⟩,
   (validate_plain_entry_spec loc0 []
      [PlainItem.entry_val ⟨1⟩, PlainItem.entry_type Category.Food,
        PlainItem.entry_span ⟨Duration.Month, Window.Current, 1⟩] date0 [] []).2.1
      (by decide) (by decide) (by decide) (by decide) (by decide),
   (validate_plain_entry_spec loc0 [] [] date0
      [DayEntry.expand loc1 ⟨"t", [], []⟩]
      [PlainItem.entry_val ⟨1⟩, PlainItem.entry_val ⟨2⟩]).2.2 (by decide)⟩

/-! ## Claim C8 -/

theorem affix_inj1 {s t : String} (pre suf : List Char)
    (h : pre ++ (s.data ++ suf) = pre ++ (t.data ++ suf)) : s = t :=
  String.ext (List.append_cancel_right (List.append_cancel_left h))

theorem affix_inj2 {s t : String} (pre1 pre2 suf : List Char)
    (h : pre1 ++ (pre2 ++ (s.data ++ suf)) = pre1 ++ (pre2 ++ (t.data ++ suf))) :
    s = t :=
  String.ext (List.append_cancel_right
    (List.append_cancel_left (List.append_cancel_left h)))

theorem unused_argument_warning_inj (loc : Loc) (name : String) (tloc : Loc)
    {a b : String}
    (h : unused_argument_warning loc name a tloc =
      unused_argument_warning loc name b tloc) : a = b := by
  have h1 : (unused_argument_warning loc name a tloc).items =
      (unused_argument_warning loc name b tloc).items := by rw [h]
  simp only [unused_argument_warning, Error.new, Error.nonfatal,
    Error.with_span, Error.with_message, List.nil_append, List.cons_append,
    List.singleton_append, List.cons.injEq, ErrItem.span.injEq,
    ErrItem.text.injEq, and_true, true_and] at h1
  have h2 : ("Argument " ++ a ++ " is provided but not used").data =
      ("Argument " ++ b ++ " is provided but not used").data := by
    rw [h1]
  simp only [String.data_append, List.append_assoc] at h2
  exact affix_inj1 _ _ h2

theorem needless_amount_warning_inj (loc : Loc) (name : String) (tloc : Loc)
    {a b : String}
    (h : needless_amount_warning loc name a tloc =
      needless_amount_warning loc name b tloc) : a = b := by
  have h1 : (needless_amount_warning loc name a tloc).items =
      (needless_amount_warning loc name b tloc).items := by rw [h]
  simp only [needless_amount_warning, Error.new, Error.nonfatal,
    Error.with_span, Error.with_message, List.nil_append, List.cons_append,
    List.singleton_append, List.cons.injEq, ErrItem.span.injEq,
    ErrItem.text.injEq, and_true, true_and] at h1
  have h2 : ("Argument " ++ squote a ++ " has type " ++ squote "amount" ++
        " but could be a " ++ squote "tag").data =
      ("Argument " ++ squote b ++ " has type " ++ squote "amount" ++
        " but could be a " ++ squote "tag").data := by
    rw [h1]
  simp only [squote, String.data_append, List.append_assoc] at h2
  exact affix_inj2 _ _ _ h2

theorem unused_ne_needless (loc : Loc) (name : String) (a : String)
    (tloc : Loc) (loc2 : Loc) (name2 : String) (b : String) (tloc2 : Loc) :
    unused_argument_warning loc name a tloc ≠
      needless_amount_warning loc2 name2 b tloc2 := by
  intro h
  have h1 : (unused_argument_warning loc name a tloc).title =
      (needless_amount_warning loc2 name2 b tloc2).title := by rw [h]
  simp only [unused_argument_warning, needless_amount_warning, Error.new,
    Error.nonfatal, Error.with_span, Error.with_message] at h1
  exact absurd h1 (by decide)

theorem audit_warning_eq (loc : Loc) (name : String) (tloc : Loc)
    (uv ut : List String) (p : String × Arg) (w : Error)
    (h : audit_warning loc name tloc uv ut p = some w) :
    w = unused_argument_warning loc name p.1 tloc ∨
      w = needless_amount_warning loc name p.1 tloc := by
  obtain ⟨a, v⟩ := p
  unfold audit_warning at h
  revert h
  cases v with
  | Amount x =>
    cases uv.contains a <;> cases ut.contains a <;> intro h <;> simp at h
    · exact Or.inl h.symm
    · exact Or.inr h.symm
  | Tag x =>
    cases uv.contains a <;> cases ut.contains a <;> intro h <;> simp at h
    · exact Or.inl h.symm

theorem audit_warning_unused (loc : Loc) (name : String) (tloc : Loc)
    (uv ut : List String) (p : String × Arg)
    (h1 : uv.contains p.1 = false) (h2 : ut.contains p.1 = false) :
    audit_warning loc name tloc uv ut p =
      some (unused_argument_warning loc name p.1 tloc) := by
  obtain ⟨a, v⟩ := p
  unfold audit_warning
  rw [h1, h2]
  cases v <;> rfl

theorem audit_warning_needless (loc : Loc) (name : String) (tloc : Loc)
    (uv ut : List String) (a : String) (v : Amount)
    (h1 : uv.contains a = false) (h2 : ut.contains a = true) :
    audit_warning loc name tloc uv ut (a, Arg.Amount v) =
      some (needless_amount_warning loc name a tloc) := by
  unfold audit_warning
  rw [h1, h2]

theorem count_filterMap_eq_countP {α β : Type} [DecidableEq β]
    (f : α → Option β) (w : β) (l : List α) :
    (l.filterMap f).count w = l.countP (fun q => f q == some w) :=
  List.count_filterMap w f l

theorem countP_unique_key {W : (String × Arg) → Option Error}
    {args : List (String × Arg)} {p : String × Arg} {w : Error}
    (hmem : p ∈ args) (hnd : (args.map Prod.fst).Nodup)
    (hp : W p = some w) (hkey : ∀ q, W q = some w → q.1 = p.1) :
    args.countP (fun q => W q == some w) = 1 := by
  induction args with
  | nil => cases hmem
  | cons hd tl ih =>
    simp only [List.map_cons, List.nodup_cons] at hnd
    rcases List.mem_cons.1 hmem with rfl | hp2
    · rw [List.countP_cons_of_pos (fun q => W q == some w) tl
        (beq_iff_eq.mpr hp)]
      have hz : tl.countP (fun q => W q == some w) = 0 := by
        rw [List.countP_eq_zero]
        intro q hq hWq
        have hk : q.1 = p.1 := hkey q (eq_of_beq hWq)
        have hmm : p.1 ∈ List.map Prod.fst tl := by
          rw [← hk]
          exact List.mem_map_of_mem Prod.fst hq
        exact hnd.1 hmm
      rw [hz]
    · have hne : ¬ (W hd = some w) := by
        intro hWhd
        have hk : hd.1 = p.1 := hkey hd hWhd
        have hmm : hd.1 ∈ List.map Prod.fst tl := by
          rw [hk]
          exact List.mem_map_of_mem Prod.fst hp2
        exact hnd.1 hmm
      rw [List.countP_cons_of_neg (fun q => W q == some w) tl
        (fun hWq => hne (eq_of_beq hWq))]
      exact ih hp2 hnd.2

/-- Claim C8: once both evaluations succeed, `perform_replacements` cannot
fail: it returns the entry together with the printed advisories, all of them
non-fatal.  With the duplicate-free argument map produced by
`build_arguments`, an argument consulted by neither evaluation yields exactly
one "Unused argument" advisory, and an `Amount`-typed argument consulted
only by the tag evaluation yields exactly one "Needless amount" advisory. -/
theorem perform_replacements_audit (name : String) (loc tloc : Loc)
    (templ : Template) (args : List (String × Arg)) (date : Date)
    (amt : Amount) (uv : List String) (tg : Tag) (ut : List String)
    (ha : instantiate_amount name loc tloc templ.value args = .ok (amt, uv))
    (ht : instanciate_tag name loc tloc templ.tag args date = .ok (tg, ut)) :
    perform_replacements name loc (tloc, templ) args date =
      .ok (⟨amt, templ.cat, templ.span, tg⟩,
        args.filterMap (audit_warning loc name tloc uv ut)) ∧
    (∀ a, (unused_argument_warning loc name a tloc).fatal = false ∧
      (needless_amount_warning loc name a tloc).fatal = false) ∧
    ((args.map Prod.fst).Nodup →
      (∀ p ∈ args, uv.contains p.1 = false → ut.contains p.1 = false →
        (args.filterMap (audit_warning loc name tloc uv ut)).count
          (unused_argument_warning loc name p.1 tloc) = 1) ∧
      (∀ a v, (a, Arg.Amount v) ∈ args → uv.contains a = false →
        ut.contains a = true →
        (args.filterMap (audit_warning loc name tloc uv ut)).count
          (needless_amount_warning loc name a tloc) = 1)) := by
  refine ⟨by simp [perform_replacements, ha, ht], fun a => ⟨rfl, rfl⟩, ?_⟩
  intro hnd
  constructor
  · intro p hmem h1 h2
    rw [count_filterMap_eq_countP]
    refine countP_unique_key hmem hnd
      (audit_warning_unused loc name tloc uv ut p h1 h2) ?_
    intro q hq
    rcases audit_warning_eq loc name tloc uv ut q _ hq with hc | hc
    · exact unused_argument_warning_inj loc name tloc hc.symm
    · exact absurd hc (unused_ne_needless loc name p.1 tloc loc name q.1 tloc)
  · intro a v hmem h1 h2
    rw [count_filterMap_eq_countP]
    refine countP_unique_key hmem hnd
      (audit_warning_needless loc name tloc uv ut a v h1 h2) ?_
    intro q hq
    rcases audit_warning_eq loc name tloc uv ut q _ hq with hc | hc
    · exact absurd hc.symm (unused_ne_needless loc name q.1 tloc loc name a tloc)
    · exact needless_amount_warning_inj loc name tloc hc.symm

theorem perform_replacements_audit_witness :
    instantiate_amount "t" loc0 loc1 templW8.value argsW8 = .ok (⟨1⟩, []) ∧
    instanciate_tag "t" loc0 loc1 templW8.tag argsW8 date0 =
      .ok (⟨"0.06"⟩, ["z"]) ∧
    (perform_replacements "t" loc0 (loc1, templW8) argsW8 date0 =
        .ok (⟨⟨1⟩, templW8.cat, templW8.span, ⟨"0.06"⟩⟩,
          argsW8.filterMap (audit_warning loc0 "t" loc1 [] ["z"])) ∧
      (∀ a, (unused_argument_warning loc0 "t" a loc1).fatal = false ∧
        (needless_amount_warning loc0 "t" a loc1).fatal = false) ∧
      ((argsW8.map Prod.fst).Nodup →
        (∀ p ∈ argsW8, List.contains [] p.1 = false →
          List.contains ["z"] p.1 = false →
          (argsW8.filterMap (audit_warning loc0 "t" loc1 [] ["z"])).count
            (unused_argument_warning loc0 "t" p.1 loc1) = 1) ∧
        (∀ a v, (a, Arg.Amount v) ∈ argsW8 → List.contains [] a = false →
          List.contains ["z"] a = true →
          (argsW8.filterMap (audit_warning loc0 "t" loc1 [] ["z"])).count
            (needless_amount_warning loc0 "t" a loc1) = 1))) :=
  ⟨rfl, rfl,
   perform_replacements_audit "t" loc0 loc1 templW8 argsW8 date0 ⟨1⟩ []
     ⟨"0.06"⟩ ["z"] rfl rfl⟩

/-! ## Claim C3 -/

set_option maxRecDepth 8000 in
/-- Claim C3 counterexample: the claim's universal rule — parsed Amount =
round-half-away-from-zero of 100 × value — fails at the literal `"1.005"`:
the code's binary64 pipeline yields 100 cents (the nearest double to 1.005
is slightly below it, and 100·that double rounds to a double slightly below
100.5), while the exact rule yields 101. -/
theorem parse_amount_exact_rule_counterexample :
    read_amount false 1005 3 = ⟨100⟩ ∧ spec_round_cents false 1005 3 = 101 ∧
    parse_amount false 1005 3 ≠ spec_round_cents false 1005 3 := by
  refine ⟨?_, ?_, ?_⟩ <;> decide

set_option maxRecDepth 8000 in
/-- Claim C3 (amended): the parsed Amount is the binary64 result
`(literal as f64 * 100.0).round()` with halves away from zero.  This agrees
with the exact rule round-half-away-from-zero(100×value) on the claim's two
named instances — `"12.345"` parses to `Amount 1235` and `"0.005"` parses to
`Amount 1` — but not on every decimal literal: `"1.005"` parses to
`Amount 100` although the exact rule gives 101. -/
theorem parse_amount_f64_values :
    read_amount false 12345 3 = ⟨1235⟩ ∧ read_amount false 5 3 = ⟨1⟩ ∧
    spec_round_cents false 12345 3 = 1235 ∧ spec_round_cents false 5 3 = 1 ∧
    read_amount false 1005 3 = ⟨100⟩ := by
  refine ⟨?_, ?_, ?_, ?_, ?_⟩ <;> decide

end Planner
